import Mathlib

/-!
Verification development for the `teamsDashboard/teamDetails` view
(`src/sentry/static/sentry/app/views/teamsDashboard/teamDetails/index.tsx`).

The component is shallowly embedded: the enum `TAB`, the component state,
the pure parts of the handlers (`getCurrentTab`, the tab-link `onClick`
handlers, the query construction and state update of
`fetchUnlinkedProjects`, `renderTabContent`, `renderContent`) become Lean
functions; the outcome of the asynchronous request inside
`fetchUnlinkedProjects` is passed in explicitly as an `Except` value.
-/

namespace TeamDetails

/-- The `TAB` string enum from the source.  The runtime string value of each
member is given by `TAB.value` below. -/
inductive TAB
  | TEAM_FEED
  | TEAM_GOALS
  | PROJECTS
  | MEMBERS
  | SETTINGS
  deriving DecidableEq, Repr

/-- The string each `TAB` enum member evaluates to at runtime, exactly as
assigned in the enum declaration (`TEAM_FEED` is the string `team_feed`,
and so on). -/
def TAB.value : TAB → String
  | .TEAM_FEED => "team_feed"
  | .TEAM_GOALS => "team_goals"
  | .PROJECTS => "projects"
  | .MEMBERS => "members"
  | .SETTINGS => "settings"

/-- Helper for `jsSplit`: walks the character list, accumulating the current
segment (in reverse) and emitting a segment at each separator. -/
def jsSplitAux (sep : Char) : List Char → List Char → List String
  | [], acc => [String.mk acc.reverse]
  | c :: cs, acc =>
    if c = sep then String.mk acc.reverse :: jsSplitAux sep cs []
    else jsSplitAux sep cs (c :: acc)

/-- JavaScript `String.prototype.split` with a one-character separator, as
used by `location.pathname.split` on the slash character.  Like in JS, the
empty string splits to a one-element list holding the empty string, and a
string of n separators splits to n+1 empty segments. -/
def jsSplit (sep : Char) (s : String) : List String :=
  jsSplitAux sep s.toList []

/-- JavaScript indexing `pathnameEnd[pathnameEnd.length - 2]`: the
second-to-last element of the list, `none` standing for `undefined` when the
list has fewer than two elements. -/
def secondToLast (l : List String) : Option String :=
  l.reverse.get? 1

/-- The `switch (pathname)` statement of `getCurrentTab`: compares the
(possibly `undefined`) segment against the enum string values
`TAB.TEAM_GOALS`, `TAB.PROJECTS`, `TAB.MEMBERS`, `TAB.SETTINGS`; anything
else (including `undefined`) falls to the `default` branch, `TAB.TEAM_FEED`. -/
def tabSwitch (pathname : Option String) : TAB :=
  match pathname with
  | some s =>
    if s = TAB.TEAM_GOALS.value then .TEAM_GOALS
    else if s = TAB.PROJECTS.value then .PROJECTS
    else if s = TAB.MEMBERS.value then .MEMBERS
    else if s = TAB.SETTINGS.value then .SETTINGS
    else .TEAM_FEED
  | none => .TEAM_FEED

/-- The derivation of the tab from `location.pathname` in `getCurrentTab`:
split the pathname on the slash character, take the second-to-last segment,
and run it through the switch.  (The surrounding `setState` is modelled by
`deriveTab` below.) -/
def getCurrentTab (pathname : String) : TAB :=
  let pathnameEnd := jsSplit '/' pathname
  tabSwitch (secondToLast pathnameEnd)

/-- A project record; the component never looks inside one, it only stores
and forwards collections of them. -/
structure Project where
  id : String
  deriving DecidableEq, Repr

/-- A team member record; stored and forwarded, never inspected. -/
structure Member where
  id : String
  deriving DecidableEq, Repr

/-- The slice of the organization record the component reads: its
access-grant strings (`organization.access`). -/
structure Organization where
  access : List String
  deriving DecidableEq, Repr

/-- The slice of the team record the component reads: `team.slug` and
`team.members`. -/
structure Team where
  slug : String
  members : List Member
  deriving DecidableEq, Repr

/-- The props the embedded handlers read: the route params `orgSlug` and
`teamSlug`, `location.pathname`, the team supplied by `withTeam` (which can
be absent, modelling the null check `if (!team)`), the `isLoading` flag, and
the organization. -/
structure Props where
  orgSlug : String
  teamSlug : String
  pathname : String
  team : Option Team
  isLoading : Bool
  organization : Organization
  deriving DecidableEq, Repr

/-- The component state fields set in `getDefaultState` and written by the
handlers: `searchTerm`, `currentTab`, `projectsPageLinks`, `projects`,
`unlinkedProjects`. -/
structure State where
  searchTerm : String
  currentTab : TAB
  projectsPageLinks : String
  projects : List Project
  unlinkedProjects : List Project
  deriving DecidableEq, Repr

/-- `getDefaultState`: empty strings and lists, current tab `TEAM_FEED`. -/
def getDefaultState : State :=
  { searchTerm := ""
    projectsPageLinks := ""
    currentTab := .TEAM_FEED
    projects := []
    unlinkedProjects := [] }

/-- The rejection value of a failed API request; never inspected (the catch
block binds nothing). -/
structure ApiError where
  message : String
  deriving DecidableEq, Repr

/-- The URL of the read issued by `fetchUnlinkedProjects`:
the organization projects collection. -/
def fetchUnlinkedProjectsUrl (orgSlug : String) : String :=
  "/organizations/" ++ orgSlug ++ "/projects/"

/-- The `query` parameter built by `fetchUnlinkedProjects` via the ternary
on the optional `query` argument.  JS truthiness applies: `undefined`
(`none` here) and the empty string are both falsy, so both take the second
branch without the trailing space and filter. -/
def fetchUnlinkedProjectsQuery (teamSlug : String) : Option String → String
  | some q =>
    if q != "" then "!team:" ++ teamSlug ++ " " ++ q
    else "!team:" ++ teamSlug
  | none => "!team:" ++ teamSlug

/-- The state transition performed by `fetchUnlinkedProjects`, with the
outcome of `api.requestPromise` passed in explicitly: on success `setState`
writes the `unlinkedProjects` field; on rejection the catch block swallows
the error and the state is untouched.  The function being total over all
outcomes models that no exception escapes. -/
def fetchUnlinkedProjects (st : State) (outcome : Except ApiError (List Project)) : State :=
  match outcome with
  | .ok unlinkedProjects => { st with unlinkedProjects := unlinkedProjects }
  | .error _ => st

/-- The `setState` at the end of `getCurrentTab`: write the derived tab. -/
def deriveTab (pathname : String) (st : State) : State :=
  { st with currentTab := getCurrentTab pathname }

/-- The `onClick` handler of each tab `ListLink` in `renderContent`: a
`setState` writing only the `currentTab` field with the tab of that link. -/
def clickTabLink (t : TAB) (st : State) : State :=
  { st with currentTab := t }

/-- The five `ListLink`s of `renderContent`: the route segment each `to`
target appends to `baseTabUrl`, paired with the tab its `onClick` sets. -/
def tabLinks : List (String × TAB) :=
  [("team-feed/", .TEAM_FEED), ("team-goals/", .TEAM_GOALS),
   ("projects/", .PROJECTS), ("members/", .MEMBERS), ("settings/", .SETTINGS)]

/-- The `canWrite` computation of `renderTabContent`:
`new Set(organization.access)` and the two `has` tests; membership in the
set built from a list is membership in the list. -/
def canWrite (access : List String) : Bool :=
  access.contains "org:write" || access.contains "team:admin"

/-- The five sub-views `renderTabContent` can return, with the props each
receives from the switch arms.  (The TS switch also has `default: return
null`, unreachable for a value of the closed enum; the Lean match is total
over `TAB`.) -/
inductive TabContent
  | feed (projects : List Project)
  | teamGoalsPlaceholder
  | projectsView (projects unlinkedProjects : List Project) (canWrite : Bool)
      (teamSlug : String) (pageLinks : String)
  | membersView (canWrite : Bool) (teamSlug : String) (members : List Member)
  | settingsPlaceholder
  deriving DecidableEq, Repr

/-- `renderTabContent`: dispatch on `state.currentTab`, passing each
sub-view the slices of state and props the source passes it. -/
def renderTabContent (organization : Organization) (team : Team) (st : State) : TabContent :=
  let cw := canWrite organization.access
  match st.currentTab with
  | .TEAM_FEED => .feed st.projects
  | .TEAM_GOALS => .teamGoalsPlaceholder
  | .PROJECTS =>
    .projectsView st.projects st.unlinkedProjects cw team.slug st.projectsPageLinks
  | .MEMBERS => .membersView cw team.slug team.members
  | .SETTINGS => .settingsPlaceholder

/-- The message of the empty-state warning,
`t("Team \x27%s\x27 was not found", teamSlug)`, with the placeholder
substituted. -/
def teamNotFoundMessage (teamSlug : String) : String :=
  "Team \x27" ++ teamSlug ++ "\x27 was not found"

/-- The three shapes `renderContent` can produce: the loading indicator, the
empty-state warning with its message, or the page whose body holds the
active tab content. -/
inductive Rendered
  | loadingIndicator
  | emptyStateWarning (message : String)
  | page (content : TabContent)
  deriving DecidableEq, Repr

/-- Whether a rendered output shows any tab content (only the page does). -/
def Rendered.hasTabContent : Rendered → Bool
  | .page _ => true
  | _ => false

/-- `renderContent`: the loading guard, the null-team guard, then the page
with the active tab content. -/
def renderContent (p : Props) (st : State) : Rendered :=
  if p.isLoading then .loadingIndicator
  else
    match p.team with
    | none => .emptyStateWarning (teamNotFoundMessage p.teamSlug)
    | some team => .page (renderTabContent p.organization team st)

/-- The events that write component state: the mount-time tab derivation
(`getCurrentTab`), a tab-link click, and completion of the unlinked-projects
fetch with its outcome. -/
inductive Event
  | mountDeriveTab (pathname : String)
  | clickTab (t : TAB)
  | unlinkedFetch (outcome : Except ApiError (List Project))

/-- One state transition of the component, per event. -/
def step (st : State) : Event → State
  | .mountDeriveTab pathname => deriveTab pathname st
  | .clickTab t => clickTabLink t st
  | .unlinkedFetch outcome => fetchUnlinkedProjects st outcome

/-- States reachable from `getDefaultState` by the event handlers. -/
inductive Reachable : State → Prop
  | init : Reachable getDefaultState
  | step (e : Event) {st : State} : Reachable st → Reachable (TeamDetails.step st e)

/-- Every `TAB` value is one of the five enum members. -/
theorem TAB.one_of_five (t : TAB) :
    t = .TEAM_FEED ∨ t = .TEAM_GOALS ∨ t = .PROJECTS ∨
    t = .MEMBERS ∨ t = .SETTINGS := by
  cases t <;> simp

/-- C1: evaluating `getCurrentTab` at the three claimed inputs.  The
`projects` and `unknown` parts behave as claimed, but a path whose
second-to-last segment is `team-goals` — the segment the tab links of this
very component navigate to — yields `TEAM_FEED`, not the goals tab, because
the switch compares against the enum string `team_goals` (underscore) while
the route segment is `team-goals` (hyphen). -/
theorem claim_C1_code_eval :
    getCurrentTab "/organizations/org/teams/my-teams/tm/team-goals/" = TAB.TEAM_FEED ∧
    getCurrentTab "/organizations/org/teams/my-teams/tm/projects/" = TAB.PROJECTS ∧
    getCurrentTab "/organizations/org/teams/my-teams/tm/unknown/" = TAB.TEAM_FEED := by
  refine ⟨by decide, by decide, by decide⟩

/-- C2: `getCurrentTab` is total and pure: for every pathname it returns
one of the five enum values, its result depends only on the second-to-last
segment of the slash-split pathname, and whenever that segment (or its
absence, for paths with fewer than two segments) is outside the four-string
mapped set it returns `TEAM_FEED`. -/
theorem claim_C2_getCurrentTab_total :
    ∀ pathname : String,
      (getCurrentTab pathname = .TEAM_FEED ∨ getCurrentTab pathname = .TEAM_GOALS ∨
        getCurrentTab pathname = .PROJECTS ∨ getCurrentTab pathname = .MEMBERS ∨
        getCurrentTab pathname = .SETTINGS) ∧
      (∀ other : String,
        secondToLast (jsSplit '/' pathname) = secondToLast (jsSplit '/' other) →
        getCurrentTab pathname = getCurrentTab other) ∧
      (secondToLast (jsSplit '/' pathname) ∉
          [some TAB.TEAM_GOALS.value, some TAB.PROJECTS.value,
            some TAB.MEMBERS.value, some TAB.SETTINGS.value] →
        getCurrentTab pathname = .TEAM_FEED) := by
  intro pathname
  refine ⟨TAB.one_of_five _, ?_, ?_⟩
  · intro other h
    simp only [getCurrentTab]
    rw [h]
  · intro h
    simp only [getCurrentTab]
    cases hseg : secondToLast (jsSplit '/' pathname) with
    | none => rfl
    | some s =>
      rw [hseg] at h
      simp only [List.mem_cons, List.not_mem_nil, or_false, not_or,
        Option.some.injEq] at h
      obtain ⟨h1, h2, h3, h4⟩ := h
      simp [tabSwitch, h1, h2, h3, h4]

/-- C2 witness: two pathnames sharing the second-to-last segment derive the
same tab, and an unmapped segment derives `TEAM_FEED`. -/
theorem claim_C2_witness :
    getCurrentTab "/a/unknown/" = getCurrentTab "/b/unknown/" ∧
    getCurrentTab "/c/nomatch/" = TAB.TEAM_FEED :=
  ⟨(claim_C2_getCurrentTab_total "/a/unknown/").2.1 "/b/unknown/" (by decide),
    (claim_C2_getCurrentTab_total "/c/nomatch/").2.2 (by decide)⟩

/-- C3: `canWrite` is true exactly when the access grants contain
`org:write` or `team:admin`; it is false when neither is present, and in
particular on the empty grant list. -/
theorem claim_C3_canWrite_iff :
    ∀ access : List String,
      (canWrite access = true ↔ "org:write" ∈ access ∨ "team:admin" ∈ access) ∧
      ("org:write" ∉ access → "team:admin" ∉ access → canWrite access = false) ∧
      canWrite [] = false := by
  intro access
  refine ⟨?_, ?_, rfl⟩
  · simp [canWrite]
  · intro h1 h2
    simp [canWrite, h1, h2]

/-- C3 witness: concrete grant lists on both sides of the equivalence. -/
theorem claim_C3_witness :
    canWrite ["team:admin"] = true ∧ canWrite ["project:read"] = false :=
  ⟨(claim_C3_canWrite_iff ["team:admin"]).1.mpr (Or.inr (by decide)),
    (claim_C3_canWrite_iff ["project:read"]).2.1 (by decide) (by decide)⟩

/-- C4: when the request inside `fetchUnlinkedProjects` rejects, the whole
state — in particular the `unlinkedProjects` field — equals its value before
the call; the handler is a total function of the outcome, so no exception
escapes. -/
theorem claim_C4_fetch_error_preserves_state :
    ∀ (st : State) (e : ApiError),
      fetchUnlinkedProjects st (.error e) = st ∧
      (fetchUnlinkedProjects st (.error e)).unlinkedProjects = st.unlinkedProjects := by
  intro st e
  exact ⟨rfl, rfl⟩

/-- C5: in every state reachable from `getDefaultState` through the event
handlers (mount-time derivation, tab clicks, fetch completion), the current
tab is one of the five enum values. -/
theorem claim_C5_currentTab_invariant :
    ∀ st : State, Reachable st →
      st.currentTab = .TEAM_FEED ∨ st.currentTab = .TEAM_GOALS ∨
      st.currentTab = .PROJECTS ∨ st.currentTab = .MEMBERS ∨
      st.currentTab = .SETTINGS := by
  intro st h
  induction h with
  | init => exact Or.inl rfl
  | step e _ _ => exact TAB.one_of_five _

/-- C5 witness: the initial state is reachable and satisfies the invariant. -/
theorem claim_C5_witness :
    Reachable getDefaultState ∧
    (getDefaultState.currentTab = .TEAM_FEED ∨
      getDefaultState.currentTab = .TEAM_GOALS ∨
      getDefaultState.currentTab = .PROJECTS ∨
      getDefaultState.currentTab = .MEMBERS ∨
      getDefaultState.currentTab = .SETTINGS) :=
  ⟨Reachable.init, claim_C5_currentTab_invariant getDefaultState Reachable.init⟩

/-- C6: clicking a tab link sets `currentTab` to that tab in any state
(hence independently of fetch completion) and leaves every other state
field unchanged. -/
theorem claim_C6_click_frame :
    ∀ (t : TAB) (st : State),
      (clickTabLink t st).currentTab = t ∧
      (clickTabLink t st).searchTerm = st.searchTerm ∧
      (clickTabLink t st).projectsPageLinks = st.projectsPageLinks ∧
      (clickTabLink t st).projects = st.projects ∧
      (clickTabLink t st).unlinkedProjects = st.unlinkedProjects := by
  intro t st
  exact ⟨rfl, rfl, rfl, rfl, rfl⟩

/-- C7: with `isLoading` set, `renderContent` produces the loading
indicator and nothing else, whatever the rest of the props and the state
(in particular the current tab) are. -/
theorem claim_C7_loading :
    ∀ (p : Props) (st : State),
      renderContent { p with isLoading := true } st = .loadingIndicator ∧
      (renderContent { p with isLoading := true } st).hasTabContent = false := by
  intro p st
  exact ⟨rfl, rfl⟩

/-- C8: with loading complete and the team absent, `renderContent` produces
the empty-state warning whose message contains the requested team slug, and
no tab content. -/
theorem claim_C8_team_not_found :
    ∀ (p : Props) (st : State),
      renderContent { p with isLoading := false, team := none } st
        = .emptyStateWarning (teamNotFoundMessage p.teamSlug) ∧
      (∃ pre post : String,
        teamNotFoundMessage p.teamSlug = pre ++ p.teamSlug ++ post) ∧
      (renderContent { p with isLoading := false, team := none } st).hasTabContent
        = false := by
  intro p st
  exact ⟨rfl, ⟨"Team \x27", "\x27 was not found", rfl⟩, rfl⟩

/-- C9 counterexample: called with the empty string as the filter, the
query is the bare exclusion with no trailing space, not the base query with
a space and the (empty) filter appended. -/
theorem claim_C9_counterexample :
    fetchUnlinkedProjectsQuery "tm" (some "") = "!team:tm" ∧
    (fetchUnlinkedProjectsQuery "tm" (some "") = "!team:" ++ "tm" ++ " " ++ "") = False :=
  ⟨rfl, eq_false (by decide)⟩

/-- C9 (amended): `fetchUnlinkedProjects` reads the organization projects
collection; with no filter the query is the bare team exclusion, and with a
non-empty filter the query is the exclusion, a single space, then the
filter. -/
theorem claim_C9_request :
    ∀ (orgSlug teamSlug : String) (filter : Option String),
      fetchUnlinkedProjectsUrl orgSlug = "/organizations/" ++ orgSlug ++ "/projects/" ∧
      (filter = none → fetchUnlinkedProjectsQuery teamSlug filter = "!team:" ++ teamSlug) ∧
      (∀ q : String, filter = some q → q ≠ "" →
        fetchUnlinkedProjectsQuery teamSlug filter = "!team:" ++ teamSlug ++ " " ++ q) := by
  intro orgSlug teamSlug filter
  refine ⟨rfl, ?_, ?_⟩
  · intro h
    rw [h]
    rfl
  · intro q hq hne
    rw [hq]
    simp [fetchUnlinkedProjectsQuery, hne]

/-- C9 witness: the two query shapes at concrete slugs and filters. -/
theorem claim_C9_witness :
    fetchUnlinkedProjectsQuery "tm" none = "!team:" ++ "tm" ∧
    fetchUnlinkedProjectsQuery "tm" (some "search") = "!team:" ++ "tm" ++ " " ++ "search" :=
  ⟨(claim_C9_request "org" "tm" none).2.1 rfl,
    (claim_C9_request "org" "tm" (some "search")).2.2 "search" rfl (by decide)⟩

/-- C10: the empty-string filter is falsy, so it issues exactly the
no-filter query: the bare team exclusion with no trailing space. -/
theorem claim_C10_empty_filter :
    ∀ teamSlug : String,
      fetchUnlinkedProjectsQuery teamSlug (some "")
        = fetchUnlinkedProjectsQuery teamSlug none ∧
      fetchUnlinkedProjectsQuery teamSlug (some "") = "!team:" ++ teamSlug ∧
      (fetchUnlinkedProjectsQuery teamSlug (some "") = "!team:" ++ teamSlug ++ " ")
        = False := by
  intro teamSlug
  refine ⟨rfl, rfl, eq_false ?_⟩
  intro h
  rw [show fetchUnlinkedProjectsQuery teamSlug (some "") = "!team:" ++ teamSlug from rfl] at h
  have hlen := congrArg String.length h
  simp only [String.length_append] at hlen
  have hone : (" ").length = 1 := rfl
  omega

end TeamDetails
